import Mathlib

/-!
Verification of the AGENTE-Busqueda-APIS pipeline against its design
specification.  Python code is shallowly embedded: Python strings are
lists of characters, dictionaries become structures or association
lists, numbers become rationals (exact decimals) or reals where the
source uses `math.exp`/`math.sqrt`, and code that may raise is embedded
as `Except`-valued or is given exception behaviour of collaborators as
an explicit `Except` argument.
-/

namespace SearchAgent

/-- Python `str` modelled as a list of characters. -/
abbrev PyStr := List Char

/-- Python `str.lower()` (ASCII-adequate for the inputs considered). -/
def pyLower (s : PyStr) : PyStr := s.map Char.toLower

/-- Drop trailing whitespace: a character is kept exactly when some
non-whitespace character survives at or after it. -/
def trimEnd : PyStr → PyStr
  | [] => []
  | c :: rest =>
    let r := trimEnd rest
    if r = [] ∧ c.isWhitespace then [] else c :: r

/-- Python `str.strip()`: drop leading and trailing whitespace. -/
def pyTrim (s : PyStr) : PyStr := trimEnd (s.dropWhile Char.isWhitespace)

/-- Python `needle in hay` on strings: substring containment. -/
def containsSub (needle : PyStr) : PyStr → Bool
  | [] => needle.isEmpty
  | c :: rest => needle.isPrefixOf (c :: rest) || containsSub needle rest

/-- Fuel-indexed core of Python `str.replace(old, new)`: left-to-right,
non-overlapping replacement, scanning resumes after each substitution
(the replacement text itself is never rescanned).  Each step consumes at
least one input character, so fuel `s.length` always suffices. -/
def pyReplaceFuel (old new : PyStr) : Nat → PyStr → PyStr
  | 0, s => s
  | _ + 1, [] => []
  | fuel + 1, c :: rest =>
    if old ≠ [] ∧ old.isPrefixOf (c :: rest) then
      new ++ pyReplaceFuel old new fuel ((c :: rest).drop old.length)
    else
      c :: pyReplaceFuel old new fuel rest

/-- Python `str.replace(old, new)`.  An empty `old` is returned
unchanged (the embedded code never replaces an empty string). -/
def pyReplace (old new s : PyStr) : PyStr := pyReplaceFuel old new s.length s

/-- Decimal value of a digit string, as Python would read it. -/
def digitsToNat (s : PyStr) : Nat :=
  s.foldl (fun n c => 10 * n + (c.toNat - '0'.toNat)) 0

/-- `s.all Char.isDigit`. -/
def allDigits (s : PyStr) : Bool := s.all Char.isDigit

/-- Split a character list on every occurrence of `ch` (used to model
how Python's `float()` rejects strings with more than one point). -/
def splitChar (ch : Char) : PyStr → List PyStr
  | [] => [[]]
  | c :: rest =>
    match splitChar ch rest with
    | [] => [[]]
    | g :: gs => if c = ch then [] :: g :: gs else (c :: g) :: gs

/-- Leading-sign handling of Python `float(s)`. -/
def pySign : PyStr → Bool × PyStr
  | [] => (false, [])
  | c :: t =>
    if c = '-' then (true, t)
    else if c = '+' then (false, t)
    else (false, c :: t)

/-- Digit components recognized by Python `float(s)` on an
already-stripped string, modelled for plain decimal literals: optional
sign, digits, at most one point; at least one digit overall.  Returns
(negative?, integer digits, fraction digits, fraction length).
(Exponent notation and digit underscores never occur in the price
strings this pipeline handles and are modelled as failures.) -/
def pyFloatParts (s : PyStr) : Option (Bool × Nat × Nat × Nat) :=
  let signed := pySign s
  match splitChar '.' signed.2 with
  | [ds] =>
    if ds ≠ [] ∧ allDigits ds then some (signed.1, digitsToNat ds, 0, 0) else none
  | [ip, fp] =>
    if (ip ≠ [] ∨ fp ≠ []) ∧ allDigits ip ∧ allDigits fp then
      some (signed.1, digitsToNat ip, digitsToNat fp, fp.length)
    else none
  | _ => none

/-- The rational denoted by the components `pyFloatParts` extracts. -/
def partsToRat : Bool × Nat × Nat × Nat → ℚ
  | (neg, ip, fp, fl) => (if neg then -1 else 1) * ((ip : ℚ) + (fp : ℚ) / 10 ^ fl)

/-- Python `float(s)` on an already-stripped decimal literal. -/
def pyFloat (s : PyStr) : Option ℚ := (pyFloatParts s).map partsToRat

/-- The untyped `price` field of a raw listing as `AgenteML._parse_price`
receives it: `None`, an int/float, a string, or anything else. -/
inductive PriceVal where
  | pvNone
  | pvNum (q : ℚ)
  | pvStr (s : PyStr)
  | pvOther
deriving DecidableEq

/-- The string munging inside `_parse_price`:
`price.replace('$', '').replace(' ', '').replace(',', '.').strip()`.
Single-character replacements are a filter (for removals) followed by a
map (for the comma-to-point substitution). -/
def priceClean (s : PyStr) : PyStr :=
  pyTrim ((s.filter (fun c => ¬ (c = '$' ∨ c = ' '))).map
    (fun c => if c = ',' then '.' else c))

/-- `AgenteML._parse_price` (src/src/search_agent/clients/mercado_libre.py):
`None` and unparseable strings yield 0, numbers pass through, strings go
through `priceClean` and Python `float()`. -/
def parsePrice : PriceVal → ℚ
  | .pvNone => 0
  | .pvNum q => q
  | .pvStr s =>
    match pyFloat (priceClean s) with
    | some q => q
    | none => 0
  | .pvOther => 0

/-- Normalized seller record produced by `AgenteML._extract_seller_info`
(and consumed by the filter and ranking stages).  `eshopNick` models
`seller.get("eshop", {}).get("nick_name")` as read by the filter stage
(`none` when the raw `eshop` entry is absent or falsy); `levelId` and
`completed` model `seller_reputation.level_id` and
`seller_reputation.transactions.completed`. -/
structure Seller where
  sid : Option Int
  nickname : PyStr
  eshopNick : Option PyStr
  levelId : Option PyStr
  completed : ℚ
deriving DecidableEq

/-- The raw `seller` field of a listing: either a bare string
(`"Por <name>"` shape) or an object; an absent/empty object is the
object form with all defaults (`id = None`, `nickname = ""`). -/
inductive SellerVal where
  | svStr (s : PyStr)
  | svDict (sid : Option Int) (nickname : PyStr) (levelId : Option PyStr) (completed : ℚ)
deriving DecidableEq

/-- Seller-name normalization shared by both branches of
`_extract_seller_info`: `.replace('Por ', '').strip()`. -/
def normSellerName (s : PyStr) : PyStr := pyTrim (pyReplace ('P' :: 'o' :: 'r' :: ' ' :: []) [] s)

/-- `AgenteML._extract_seller_info`: the string branch keeps no id or
reputation data; the object branch preserves id and reputation and
normalizes the nickname.  The normalized record carries no `eshop`
entry. -/
def extractSellerInfo : SellerVal → Seller
  | .svStr s => ⟨none, normSellerName s, none, none, 0⟩
  | .svDict sid nick lvl comp => ⟨sid, normSellerName nick, none, lvl, comp⟩

/-- Re-reading a normalized seller record as a raw seller object (what
"normalizing an already-normalized listing" means for the seller
field). -/
def sellerToVal (s : Seller) : SellerVal := .svDict s.sid s.nickname s.levelId s.completed

/-- The raw `shipping` field of a listing: a bare boolean, an object
(only the `free_shipping` entry is consumed downstream), or anything
else. -/
inductive ShipVal where
  | shBool (b : Bool)
  | shDict (free : Bool)
  | shOther
deriving DecidableEq

/-- Normalized shipping record.  `fastShipping` models the
`fast_shipping` entry read by the ranking stage (never produced by
`_extract_shipping_info`, hence `false` after normalization, but kept so
ranking can be stated over arbitrary listing dictionaries). -/
structure Shipping where
  freeShipping : Bool
  fastShipping : Bool
deriving DecidableEq

/-- `AgenteML._extract_shipping_info`, restricted to the entries read
downstream. -/
def extractShippingInfo : ShipVal → Shipping
  | .shBool b => ⟨b, false⟩
  | .shDict free => ⟨free, false⟩
  | .shOther => ⟨false, false⟩

/-- Normalized listing, restricted to the entries the filter, ranking
and enrichment stages read.  `seller = none` / `shipping = none` model a
listing dictionary whose `seller` / `shipping` entry is absent or a
falsy value (empty dictionary). -/
structure Product where
  pid : PyStr
  title : PyStr
  price : ℚ
  condition : PyStr
  soldQuantity : ℚ
  seller : Option Seller
  shipping : Option Shipping
deriving DecidableEq

/-- Filter-stage configuration, as read from
`filters.excluded_brands`, `filters.min_price`, `filters.max_price` and
`filters.allowed_conditions` (the code defaults `max_price` to infinity;
here the configured bound is an arbitrary rational). -/
structure FilterConfig where
  excludedBrands : List PyStr
  minPrice : ℚ
  maxPrice : ℚ
  allowedConditions : List PyStr

/-- The seller nickname as the filter stage reads it (empty when the
`seller` entry is absent or falsy). -/
def rawNick (item : Product) : PyStr :=
  match item.seller with
  | none => []
  | some s => s.nickname

/-- `seller_nickname_raw` after the eshop fallback of
`AgenteFiltro.filter_listings`: the seller nickname, or
`seller.eshop.nick_name` when the nickname is empty. -/
def effNick (item : Product) : PyStr :=
  if rawNick item = [] then
    (match item.seller with
      | none => none
      | some s => s.eshopNick).getD []
  else rawNick item

/-- The keep-condition of one loop iteration of
`AgenteFiltro.filter_listings` (src/src/search_agent/processing/filtering.py):
price bounds, allowed conditions, then the known-brand exclusion on the
seller nickname (with the eshop fallback); an (effectively) empty
nickname is never a reason to drop. -/
def filterKeep (cfg : FilterConfig) (item : Product) : Bool :=
  if item.price < cfg.minPrice ∨ item.price > cfg.maxPrice then false
  else if ¬ cfg.allowedConditions.contains item.condition then false
  else
    let nickLower := pyLower (effNick item)
    if nickLower ≠ [] ∧ cfg.excludedBrands.any (fun b => containsSub b nickLower) then false
    else true

/-- `AgenteFiltro.filter_listings`: keep the listings that pass every
filter, preserving order. -/
def filterListings (cfg : FilterConfig) (listings : List Product) : List Product :=
  listings.filter (filterKeep cfg)

/-- Ranking-stage configuration with the source's fallback defaults
(`ranking.weights`, `ranking.price`, `ranking.sales`, `ranking.condition`,
`ranking.seller`, `ranking.shipping`). -/
structure RankConfig where
  wPrice : ℝ
  wSales : ℝ
  wCondition : ℝ
  maxPrice : ℝ
  priceFloor : ℝ
  priceDecay : ℝ
  maxSales : ℝ
  salesWeight : ℝ
  conditionScores : List (PyStr × ℝ)
  conditionDefault : ℝ
  sellerDefault : ℝ
  sellerBase : ℝ
  levelMultipliers : List (PyStr × ℝ)
  completedWeight : ℝ
  maxTransactionBonus : ℝ
  shippingDefault : ℝ
  shippingBase : ℝ
  freeShippingBonus : ℝ
  fastShippingBonus : ℝ

/-- The source's hard-coded defaults for the ranking configuration. -/
noncomputable def defaultRankConfig : RankConfig where
  wPrice := 0.4
  wSales := 0.4
  wCondition := 0.2
  maxPrice := 1000000
  priceFloor := 1000
  priceDecay := 100000
  maxSales := 100
  salesWeight := 1
  conditionScores :=
    [("new".data, 1), ("new_other".data, 0.9), ("new_with_defects".data, 0.8),
     ("manufacturer_refurbished".data, 0.7), ("seller_refurbished".data, 0.6),
     ("used".data, 0.5), ("for_parts".data, 0.3), ("not_specified".data, 0.5)]
  conditionDefault := 0.5
  sellerDefault := 0.5
  sellerBase := 0.5
  levelMultipliers := []
  completedWeight := 0.0001
  maxTransactionBonus := 0.2
  shippingDefault := 0.5
  shippingBase := 0.5
  freeShippingBonus := 0.2
  fastShippingBonus := 0.1

/-- `max(0.0, min(1.0, x))`, the clamp used by every per-factor score. -/
noncomputable def clamp01 (x : ℝ) : ℝ := max 0 (min 1 x)

/-- `AgenteRanking._calculate_price_score`
(src/src/search_agent/processing/ranking.py): 0 for a missing or
non-positive price, otherwise the clamped inverted logistic curve. -/
noncomputable def calcPriceScore (price : Option ℝ) (maxPrice priceFloor priceDecay : ℝ) : ℝ :=
  match price with
  | none => 0
  | some p =>
    if p ≤ 0 then 0
    else clamp01 (1 / (1 + Real.exp ((min p maxPrice - priceFloor) / priceDecay)))

/-- `AgenteRanking._calculate_sales_score`. -/
noncomputable def calcSalesScore (sales maxSales salesWeight : ℝ) : ℝ :=
  if sales ≤ 0 then 0
  else clamp01 (Real.sqrt (min (sales / maxSales) 1) * salesWeight)

/-- First value bound to `key` in an association list, or the default. -/
def lookupOr {β : Type} (table : List (PyStr × β)) (key : PyStr) (default : β) : β :=
  match table.find? (fun kv => decide (kv.1 = key)) with
  | some kv => kv.2
  | none => default

/-- `AgenteRanking._calculate_condition_score`: table lookup on the
lower-cased condition with a configurable default. -/
def calcConditionScore (condition : PyStr) (cfg : RankConfig) : ℝ :=
  lookupOr cfg.conditionScores (pyLower condition) cfg.conditionDefault

/-- `AgenteRanking._calculate_seller_score`: base score, reputation
level multiplier, capped completed-transactions bonus, clamped. -/
noncomputable def calcSellerScore (seller : Option Seller) (cfg : RankConfig) : ℝ :=
  match seller with
  | none => cfg.sellerDefault
  | some s =>
    let b0 := cfg.sellerBase
    let b1 := match s.levelId with
      | none => b0
      | some lvl =>
        match cfg.levelMultipliers.find? (fun kv => decide (kv.1 = lvl)) with
        | some kv => b0 * kv.2
        | none => b0
    let b2 := if (s.completed : ℝ) > 0 then
        b1 + min ((s.completed : ℝ) * cfg.completedWeight) cfg.maxTransactionBonus
      else b1
    clamp01 b2

/-- `AgenteRanking._calculate_shipping_score`: base score plus bonuses
for free and fast shipping, clamped. -/
noncomputable def calcShippingScore (shipping : Option Shipping) (cfg : RankConfig) : ℝ :=
  match shipping with
  | none => cfg.shippingDefault
  | some sh =>
    clamp01 (cfg.shippingBase
      + (if sh.freeShipping then cfg.freeShippingBonus else 0)
      + (if sh.fastShipping then cfg.fastShippingBonus else 0))

/-- `AgenteRanking.calculate_score`: the weighted sum of price, sales
and condition factors, multiplied by the seller and shipping factors,
clamped into `[0, 1]` by `min(max(final_score, 0.0), 1.0)`. -/
noncomputable def calcScore (cfg : RankConfig) (p : Product) : ℝ :=
  let priceScore := calcPriceScore (some ((p.price : ℝ))) cfg.maxPrice cfg.priceFloor cfg.priceDecay
  let salesScore := calcSalesScore (p.soldQuantity : ℝ) cfg.maxSales cfg.salesWeight
  let condScore := calcConditionScore p.condition cfg
  let sellerScore := calcSellerScore p.seller cfg
  let shipScore := calcShippingScore p.shipping cfg
  min (max ((priceScore * cfg.wPrice + salesScore * cfg.wSales + condScore * cfg.wCondition)
      * sellerScore * shipScore) 0) 1

/-- One listing dictionary as `rank_products` handles it: the normalized
listing entries plus the optional `_ranking_score` entry. -/
abbrev ProdDict := Product × Option ℝ

/-- Placeholder dictionary for out-of-range heap reads (never reached
under the validity hypotheses of the theorems below). -/
def emptyProduct : Product := ⟨[], [], 0, [], 0, none, none⟩

/-- Stable descending insertion, scanning from the front: the new
element goes after every already-placed element whose key is at least
its own — the insertion step of a stable sort on the key, as Python's
stable `list.sort(key=..., reverse=True)` orders elements. -/
noncomputable def insDescBy {α : Type} (key : α → ℝ) (j : α) : List α → List α
  | [] => [j]
  | x :: xs => if key x < key j then j :: x :: xs else x :: insDescBy key j xs

/-- Stable descending sort by key (insertion sort; same ordering
contract as Python's stable sort with `reverse=True`). -/
noncomputable def sortDescBy {α : Type} (key : α → ℝ) (l : List α) : List α :=
  l.foldl (fun acc x => insDescBy key x acc) []

/-- One iteration of the scoring loop of `AgenteRanking.rank_products`
on the dictionary heap: read the product at reference `i`, compute its
score, `product.copy()` (allocate a fresh dictionary at the end of the
heap), then `product_with_score['_ranking_score'] = score` (store into
the fresh slot); the fresh reference is appended to the output list. -/
noncomputable def rankStep (cfg : RankConfig) (st : List ProdDict × List Nat) (i : Nat) :
    List ProdDict × List Nat :=
  let ar := st.1
  let d := ar.getD i (emptyProduct, none)
  let score := calcScore cfg d.1
  let n := ar.length
  let ar1 := ar ++ [d]
  let ar2 := ar1.set n (d.1, some score)
  (ar2, st.2 ++ [n])

/-- `AgenteRanking.rank_products` over an explicit dictionary heap
(`arena`): score-and-copy every input reference, sort the fresh
references descending by their stored `_ranking_score` (stable), then
apply the limit (`limit = 0` returns everything).  Returns the final
heap and the returned references. -/
noncomputable def rankProductsArena (cfg : RankConfig) (arena : List ProdDict)
    (refs : List Nat) (limit : Nat) : List ProdDict × List Nat :=
  let st := refs.foldl (rankStep cfg) (arena, [])
  let key := fun j => ((st.1.getD j (emptyProduct, none)).2.getD 0)
  let sorted := sortDescBy key st.2
  (st.1, if limit > 0 then sorted.take limit else sorted)

/-- `AgenteRanking.rank_products` seen as a pure list transformer (the
view the orchestrator consumes): pair every product with its score, sort
descending by score (stable), apply the limit. -/
noncomputable def rankProductsPure (cfg : RankConfig) (products : List Product) (limit : Nat) :
    List ProdDict :=
  let scored := products.map (fun p => (p, some (calcScore cfg p)))
  let sorted := sortDescBy (fun pd => pd.2.getD 0) scored
  if limit > 0 then sorted.take limit else sorted

/-- Python-dict update: replace the binding in place, or append. -/
def dictUpd {β : Type} (key : PyStr) (v : β) : List (PyStr × β) → List (PyStr × β)
  | [] => [(key, v)]
  | (k, w) :: rest => if k = key then (k, v) :: rest else (k, w) :: dictUpd key v rest

/-- Python-dict lookup. -/
def dictFind {β : Type} (key : PyStr) : List (PyStr × β) → Option β
  | [] => none
  | (k, w) :: rest => if k = key then some w else dictFind key rest

/-- Python-dict deletion. -/
def dictDel {β : Type} (key : PyStr) : List (PyStr × β) → List (PyStr × β)
  | [] => []
  | (k, w) :: rest => if k = key then rest else (k, w) :: dictDel key rest

/-- In-process fallback store of `CacheManager`
(src/services/cache_manager.py): key to stored value and absolute expiry
timestamp, time modelled as an integer clock. -/
abbrev MemCache (α : Type) := List (PyStr × α × ℤ)

/-- `CacheManager.set` on the in-process fallback (`use_redis = False`):
store the value with expiry `now + ttl`; always succeeds. -/
def memSet {α : Type} (st : MemCache α) (key : PyStr) (v : α) (ttl now : ℤ) :
    Bool × MemCache α :=
  (true, dictUpd key (v, now + ttl) st)

/-- `CacheManager.get` on the in-process fallback: return the value
while `expiry > now`, otherwise delete the entry and report absent. -/
def memGet {α : Type} (st : MemCache α) (key : PyStr) (now : ℤ) :
    Option α × MemCache α :=
  match dictFind key st with
  | none => (none, st)
  | some (v, expiry) => if expiry > now then (some v, st) else (none, dictDel key st)

/-- Connection state of the `search_agent` cache
(src/src/search_agent/services/cache.py): either the networked store is
unreachable (construction or ping failed), or it is reachable and holds
keyed values with expiry timestamps. -/
inductive SAConn (α : Type) where
  | disconnected
  | connected (store : List (PyStr × α × ℤ))

/-- `search_agent` `CacheManager.get`: with the store unreachable the
default is returned; otherwise a non-expired value is returned. -/
def saGet {α : Type} (st : SAConn α) (key : PyStr) (default : Option α) (now : ℤ) :
    Option α :=
  match st with
  | .disconnected => default
  | .connected store =>
    match dictFind key store with
    | none => default
    | some (v, expiry) => if now < expiry then some v else default

/-- `search_agent` `CacheManager.set`: with the store unreachable it
returns `False` and stores nothing; otherwise `setex`. -/
def saSet {α : Type} (st : SAConn α) (key : PyStr) (v : α) (ttl now : ℤ) :
    Bool × SAConn α :=
  match st with
  | .disconnected => (false, .disconnected)
  | .connected store => (true, .connected (dictUpd key (v, now + ttl) store))

/-- Result dictionary of `AgenteContacts.get_contact_info`
(src/agents/agente_contacts.py): status, message, the two optional data
entries, and the optional formatted rendering. -/
structure CResults (α β γ : Type) where
  status : PyStr
  message : PyStr
  dataWeb : Option α
  dataLoc : Option β
  formatted : Option γ

/-- `AgenteContacts.get_contact_info`.  The two sub-resolver calls and
the formatter call are the only operations that can raise; their
outcomes are passed in as `Except` values, and each is wrapped in its
own try/except in the source, so the facade itself is total.  An invalid
strategy raises `ValueError` inside the outer try and is caught by the
outer except, which returns the current results with an error message. -/
def getContactInfo {α β γ : Type} (strategy : PyStr) (hasWeb : Bool)
    (webRes : Except Unit α) (locRes : Except Unit β)
    (formatResults hasFormatter : Bool) (fmtRes : Except Unit γ) : CResults α β γ :=
  let base : CResults α β γ :=
    ⟨"error".data, "No search performed".data, none, none, none⟩
  if strategy ≠ "all".data ∧ strategy ≠ "web".data ∧ strategy ≠ "location".data then
    { base with message := "Error en get_contact_info".data }
  else
    let r1 := if (strategy = "all".data ∨ strategy = "web".data) ∧ hasWeb then
        match webRes with
        | .ok w => { base with dataWeb := some w, status := "partial_success".data }
        | .error _ => base
      else base
    let r2 := if strategy = "all".data ∨ strategy = "location".data then
        match locRes with
        | .ok l =>
          let st2 := if r1.status ≠ "partial_success".data then "success".data
            else "partial_success".data
          { r1 with dataLoc := some l, status := st2 }
        | .error _ => r1
      else r1
    if r2.dataWeb.isNone && r2.dataLoc.isNone then
      { r2 with message := "No se encontraron resultados".data }
    else
      let r3 := { r2 with message := "Búsqueda completada".data }
      if formatResults ∧ hasFormatter then
        match fmtRes with
        | .ok f => { r3 with formatted := some f }
        | .error _ => r3
      else r3

/-- Loop state of the probing search in `AgenteML.search`
(src/tests/agente_ml_complex.py): the accumulated results and the
consecutive empty/erroring page counter. -/
structure MLProbeState (α : Type) where
  allResults : List α
  consecEmpty : Nat

/-- The page loop of the probing search for one fixed
(endpoint, host, parameter-schema) combination.  `fetch e h p pg` is the
outcome of the HTTP GET for page `pg`: `error` for a request exception
or a non-200 status or malformed JSON, `ok` for the extracted (and
shape-normalized) result list.  Three consecutive empty/erroring pages
abandon the loop; a page with results extends the accumulator, resets
the counter, and — `if all_results: break` — leaves the loop at once. -/
def mlPagesGo {α : Type} (fetch : Nat → Nat → Nat → Nat → Except Unit (List α))
    (e h p : Nat) : List Nat → MLProbeState α → MLProbeState α
  | [], st => st
  | pg :: rest, st =>
    if st.consecEmpty ≥ 3 then st
    else
      match fetch e h p pg with
      | .error _ => mlPagesGo fetch e h p rest ⟨st.allResults, st.consecEmpty + 1⟩
      | .ok [] => mlPagesGo fetch e h p rest ⟨st.allResults, st.consecEmpty + 1⟩
      | .ok (r :: rs) =>
        let st1 : MLProbeState α := ⟨st.allResults ++ r :: rs, 0⟩
        if st1.allResults.isEmpty then mlPagesGo fetch e h p rest st1 else st1

/-- The parameter-schema loop: the source tries 4 parameter formats in
order (indices 0..3) and breaks as soon as `all_results` is non-empty.
The empty-page counter is shared across parameter schemas (it is only
reset per endpoint or on a successful page). -/
def mlParamsGo {α : Type} (fetch : Nat → Nat → Nat → Nat → Except Unit (List α))
    (e h maxPages : Nat) : List Nat → MLProbeState α → MLProbeState α
  | [], st => st
  | p :: ps, st =>
    let st1 := mlPagesGo fetch e h p (List.range maxPages) st
    if st1.allResults.isEmpty then mlParamsGo fetch e h maxPages ps st1 else st1

/-- The host loop: 3 candidate hosts in order, breaking as soon as
`all_results` is non-empty. -/
def mlHostsGo {α : Type} (fetch : Nat → Nat → Nat → Nat → Except Unit (List α))
    (e maxPages : Nat) : List Nat → MLProbeState α → MLProbeState α
  | [], st => st
  | h :: hs, st =>
    let st1 := mlParamsGo fetch e h maxPages (List.range 4) st
    if st1.allResults.isEmpty then mlHostsGo fetch e maxPages hs st1 else st1

/-- The endpoint loop: 5 candidate endpoint paths in order; the
consecutive-empty-page counter is reset at the top of each endpoint
iteration; breaks as soon as `all_results` is non-empty. -/
def mlEndpointsGo {α : Type} (fetch : Nat → Nat → Nat → Nat → Except Unit (List α))
    (maxPages : Nat) : List Nat → MLProbeState α → MLProbeState α
  | [], st => st
  | e :: es, st =>
    let st1 := mlHostsGo fetch e maxPages (List.range 3) ⟨st.allResults, 0⟩
    if st1.allResults.isEmpty then mlEndpointsGo fetch maxPages es st1 else st1

/-- `AgenteML.search` of the probing client
(src/tests/agente_ml_complex.py): probe every
endpoint × host × parameter-schema combination in the source's fixed
priority order, paginating per combination, and return the accumulated
results.  Endpoints, hosts and parameter schemas are referred to by
their index in the source's candidate lists. -/
def mlComplexSearch {α : Type} (fetch : Nat → Nat → Nat → Nat → Except Unit (List α))
    (maxPages : Nat) : List α :=
  (mlEndpointsGo fetch maxPages (List.range 5) ⟨[], 0⟩).allResults

/-- Matcher continuation for the regex embedding: given the previous
character (for word boundaries) and the remaining input, the number of
characters a successful match of the rest of the pattern consumes. -/
abbrev MK := Option Char → List Char → Option Nat

/-- Empty pattern tail: succeed consuming nothing. -/
def mkDone : MK := fun _ _ => some 0

/-- Match one character satisfying `pred`. -/
def mkChar (pred : Char → Bool) (k : MK) : MK := fun _ rest =>
  match rest with
  | [] => none
  | c :: rs => if pred c then (k (some c) rs).map (· + 1) else none

/-- Greedy `X?`: prefer consuming `X`, else fall through (Python regex
preference order). -/
def mkOpt (p : MK → MK) (k : MK) : MK := fun prev rest =>
  (p k prev rest) <|> k prev rest

/-- Literal string. -/
def mkLit (s : PyStr) (k : MK) : MK :=
  s.foldr (fun c acc => mkChar (fun d => d = c) acc) k

/-- Exactly `n` characters satisfying `pred`. -/
def mkExact (pred : Char → Bool) : Nat → MK → MK
  | 0, k => k
  | n + 1, k => mkChar pred (mkExact pred n k)

/-- Bounded counted repetition: try the counts in the given order (the
greedy order lists the largest first), as Python's backtracking does for
`X\x7bm,n\x7d`. -/
def mkCounts (pred : Char → Bool) : List Nat → MK → MK
  | [], _ => fun _ _ => none
  | n :: ns, k => fun prev rest =>
    (mkExact pred n k prev rest) <|> (mkCounts pred ns k prev rest)

/-- Regex word character (`\w`, ASCII fragment). -/
def isWordChar (c : Char) : Bool := c.isAlphanum || c = '_'

/-- Word boundary between the previous character and the next one. -/
def atBoundary (prev : Option Char) (rest : List Char) : Bool :=
  (match prev with
    | none => false
    | some c => isWordChar c)
  != (match rest with
    | [] => false
    | c :: _ => isWordChar c)

/-- `\B`. -/
def mkNoBoundary (k : MK) : MK := fun prev rest =>
  if atBoundary prev rest then none else k prev rest

/-- `\b`. -/
def mkBoundary (k : MK) : MK := fun prev rest =>
  if atBoundary prev rest then k prev rest else none

/-- Greedy `X*` with backtracking: prefer consuming another `X`. -/
def mkStar (pred : Char → Bool) (k : MK) : Option Char → List Char → Option Nat
  | prev, [] => k prev []
  | prev, c :: rs =>
    (if pred c then (mkStar pred k (some c) rs).map (· + 1) else none) <|> k prev (c :: rs)

/-- Greedy `X+`. -/
def mkPlus (pred : Char → Bool) (k : MK) : MK :=
  mkChar pred (fun p r => mkStar pred k p r)

/-- Character class `[\s\.-]` of the phone pattern. -/
def isSep (c : Char) : Bool := c.isWhitespace || c = '.' || c = '-'

/-- The group `(?:11|[23]\d\x7b1,3\x7d)` of the phone pattern of
`AgenteGoogle._extract_phone` (src/agents/agente_google.py). -/
def mkAreaCore (k : MK) : MK := fun prev rest =>
  (mkLit ("11".data) k prev rest) <|>
  (mkChar (fun c => c = '2' || c = '3') (mkCounts Char.isDigit [3, 2, 1] k) prev rest)

/-- The common tail `(?:15)?\s?\d\x7b2,4\x7d[\s\.-]?\d\x7b3,4\x7d\b` of
the phone pattern. -/
def mkPhoneTail : MK :=
  mkOpt (mkLit ("15".data))
    (mkOpt (mkChar Char.isWhitespace)
      (mkCounts Char.isDigit [4, 3, 2]
        (mkOpt (mkChar isSep)
          (mkCounts Char.isDigit [4, 3] (mkBoundary mkDone)))))

/-- First alternative of the phone pattern:
`(?:\B\+?54\s?9?)(?:11|[23]\d\x7b1,3\x7d)\s?` followed by the tail. -/
def mkPhoneAlt1 : MK :=
  mkNoBoundary
    (mkOpt (mkChar (fun c => c = '+'))
      (mkLit ("54".data)
        (mkOpt (mkChar Char.isWhitespace)
          (mkOpt (mkChar (fun c => c = '9'))
            (mkAreaCore (mkOpt (mkChar Char.isWhitespace) mkPhoneTail))))))

/-- Second alternative of the phone pattern:
`0?(?:11|[23]\d\x7b1,3\x7d)\s?` followed by the tail. -/
def mkPhoneAlt2 : MK :=
  mkOpt (mkChar (fun c => c = '0'))
    (mkAreaCore (mkOpt (mkChar Char.isWhitespace) mkPhoneTail))

/-- The full phone pattern of `AgenteGoogle._extract_phone`. -/
def phoneMatch : MK := fun prev rest =>
  mkPhoneAlt1 prev rest <|> mkPhoneAlt2 prev rest

/-- Local-part character class of the email pattern
`[a-zA-Z0-9._%+-]`. -/
def isLocalCh (c : Char) : Bool :=
  c.isAlphanum || c = '.' || c = '_' || c = '%' || c = '+' || c = '-'

/-- Domain character class `[a-zA-Z0-9.-]`. -/
def isDomCh (c : Char) : Bool := c.isAlphanum || c = '.' || c = '-'

/-- The email pattern of `AgenteGoogle._extract_email`:
`[a-zA-Z0-9._%+-]+@[a-zA-Z0-9.-]+\.[a-zA-Z]\x7b2,\x7d`. -/
def emailMatch : MK :=
  mkPlus isLocalCh
    (mkChar (fun c => c = '@')
      (mkPlus isDomCh
        (mkChar (fun c => c = '.')
          (mkChar Char.isAlpha
            (mkChar Char.isAlpha (fun p r => mkStar Char.isAlpha mkDone p r))))))

/-- `re.search` body: try match at each start position left to right and
return the first (leftmost) matched text. -/
def reSearchGo (m : MK) : Option Char → List Char → Option PyStr
  | prev, [] =>
    match m prev [] with
    | some _ => some []
    | none => none
  | prev, c :: rs =>
    match m prev (c :: rs) with
    | some n => some ((c :: rs).take n)
    | none => reSearchGo m (some c) rs

/-- `re.search(pattern, s)`, returning `match.group(0)`. -/
def reSearch (m : MK) (s : PyStr) : Option PyStr := reSearchGo m none s

/-- The digit clean-up and Argentine-number formatting applied to a
phone match in `AgenteGoogle._extract_phone`: keep the digits
(`re.sub(r'\D', '', raw)`), strip a trunk `0`, strip a mobile `15`
infix, inject the mobile-indicator `9` only for 8-digit local numbers
with a Buenos Aires prefix, and prefix `549`/`54` bookkeeping before the
final `+`. -/
def formatPhone (raw : PyStr) : PyStr :=
  let d0 := raw.filter Char.isDigit
  let d1 := if ("0".data).isPrefixOf d0 then d0.drop 1 else d0
  let d2 := if ("15".data).isPrefixOf d1 then d1.drop 2 else d1
  let d3 := if d2.length = 8 ∧
      (("11".data).isPrefixOf raw ∨ ("011".data).isPrefixOf raw ∨
        (("+5411".data).isPrefixOf raw ∧ ¬ ("+54911".data).isPrefixOf raw)) then
      '9' :: d2
    else d2
  let d4 := if ¬ ("54".data).isPrefixOf d3 then
      (if d3.length = 10 ∧ ("11".data).isPrefixOf d3 then "549".data ++ d3
       else if d3.length ≥ 8 then "549".data ++ d3
       else d3)
    else d3
  '+' :: d4

/-- Contact dictionary built by `AgenteGoogle.search_seller_contacts`. -/
structure GContact where
  phone : Option PyStr
  email : Option PyStr
  facebookUrl : Option PyStr
deriving DecidableEq

/-- The initial contact dictionary (all entries `None`). -/
def emptyGContact : GContact := ⟨none, none, none⟩

/-- One Google search result item (title, snippet, link), already
decoded from the API response. -/
structure GItem where
  title : PyStr
  snippet : PyStr
  link : PyStr

/-- `AgenteGoogle._process_search_item`: scan the lower-cased
concatenation of title, snippet and link for a phone (formatted through
`formatPhone`) and an email, and take the link as the social URL when it
contains `facebook.com`; each entry is only filled when still absent. -/
def processSearchItem (item : GItem) (ci0 : GContact) : GContact :=
  let text := pyLower (item.title ++ ' ' :: (item.snippet ++ ' ' :: item.link))
  let linkL := pyLower item.link
  let ci1 :=
    match ci0.phone with
    | some _ => ci0
    | none =>
      match reSearch phoneMatch text with
      | none => ci0
      | some raw => { ci0 with phone := some (formatPhone raw) }
  let ci2 :=
    match ci1.email with
    | some _ => ci1
    | none =>
      match reSearch emailMatch text with
      | none => ci1
      | some m => { ci1 with email := some m }
  if ci2.facebookUrl.isNone && containsSub ("facebook.com".data) linkL then
    { ci2 with facebookUrl := some linkL }
  else ci2

/-- `all(contact_info.values())`. -/
def allFieldsSet (ci : GContact) : Bool :=
  ci.phone.isSome && ci.email.isSome && ci.facebookUrl.isSome

/-- The result-scanning loop of `AgenteGoogle.search_seller_contacts`:
process each item, stopping early once every entry is filled. -/
def scanItems : List GItem → GContact → GContact
  | [], ci => ci
  | it :: rest, ci =>
    let ci1 := processSearchItem it ci
    if allFieldsSet ci1 then ci1 else scanItems rest ci1

/-- `AgenteGoogle.search_seller_contacts` on an already-decoded item
list (the HTTP call, the per-seller memo dictionary and the catch-all
that returns the same dictionary on failure are modelled away: the
decoded `items` of the response are the input). -/
def searchSellerContacts (items : List GItem) : GContact :=
  scanItems items emptyGContact

/-- Raw listing payload, restricted to the entries `_normalize_result`
reads for the entries the downstream stages consume. -/
structure RawItem where
  rid : PyStr
  title : PyStr
  priceRaw : PriceVal
  conditionRaw : Option PyStr
  soldQuantityRaw : Option ℚ
  sellerRaw : SellerVal
  shippingRaw : ShipVal

/-- `AgenteML._normalize_result`
(src/src/search_agent/clients/mercado_libre.py), projected onto the
entries the filter, ranking and enrichment stages read. -/
def normalizeResult (item : RawItem) : Product :=
  ⟨item.rid, item.title, parsePrice item.priceRaw,
    item.conditionRaw.getD ("not_specified".data),
    item.soldQuantityRaw.getD 0,
    some (extractSellerInfo item.sellerRaw),
    some (extractShippingInfo item.shippingRaw)⟩

/-- Outcome of the marketplace HTTP GET as `AgenteML.search` sees it:
a transport-level exception, or a reply with a status code and a body
whose JSON decoding may fail. -/
inductive MLResponse where
  | netError
  | reply (status : Nat) (body : Except Unit (List RawItem))

/-- `AgenteML.search` / `_process_search_response`: every failure mode
(request exception, malformed JSON, non-200 status) is caught and
yields `([], 0)`; a good reply yields the normalized results and the
result count (the `paging` total is modelled by its fallback, the
count). -/
def mlSearchStage (resp : MLResponse) : List Product × Nat :=
  match resp with
  | .netError => ([], 0)
  | .reply status body =>
    match body with
    | .error _ => ([], 0)
    | .ok items =>
      if status ≠ 200 then ([], 0)
      else (items.map normalizeResult, items.length)

/-- The `seller_contact` entry of an enriched product: absent when the
listing has no truthy seller id, the caught-exception empty dictionary,
or the contact data returned by the contact manager. -/
inductive ContactField (γ : Type) where
  | absent
  | failed
  | got (c : γ)

/-- One iteration of the enrichment loop of
`SearchOrchestrator.execute_top_seller_search`: look up the seller id
(`product.get('seller', \x7b\x7d).get('id')`, truthy check), call the
contact manager, and on any exception attach the empty dictionary —
the product is appended in every case. -/
def enrichProduct {γ : Type} (oracle : Int → Except Unit γ) (p : ProdDict) :
    ProdDict × ContactField γ :=
  match p.1.seller with
  | none => (p, .absent)
  | some s =>
    match s.sid with
    | none => (p, .absent)
    | some i =>
      if i = 0 then (p, .absent)
      else
        match oracle i with
        | .ok c => (p, .got c)
        | .error _ => (p, .failed)

/-- `SearchOrchestrator.execute_top_seller_search`
(src/src/search_agent/core/orchestrator.py): validate the query and the
country code (the only `raise` reachable for the caller — every stage
catches its own provider failures: the marketplace client returns
`([], 0)` on any error, filter and ranking are pure, and the enrichment
loop catches per-product exceptions), then run
search → filter → rank → enrich.  `resp` is the marketplace provider
outcome and `oracle` the contact manager's per-seller outcome; the
missing `ContactManager` implementation is quantified over rather than
modelled. -/
noncomputable def executeTopSellerSearch {γ : Type} (query country : PyStr)
    (fcfg : FilterConfig) (rcfg : RankConfig) (rankLimit : Nat)
    (resp : MLResponse) (oracle : Int → Except Unit γ) :
    Except PyStr (List (ProdDict × ContactField γ)) :=
  if pyTrim query = [] then
    .error ("El término de búsqueda no puede estar vacío".data)
  else if country.length ≠ 2 then
    .error ("El código de país debe ser un código de 2 letras".data)
  else
    let products := (mlSearchStage resp).1
    if products = [] then .ok []
    else
      let filtered := filterListings fcfg products
      if filtered = [] then .ok []
      else
        let ranked := rankProductsPure rcfg filtered rankLimit
        .ok (ranked.map (enrichProduct oracle))

/-- `Except` success recognizer. -/
def exceptOk {ε α : Type} : Except ε α → Bool
  | .ok _ => true
  | .error _ => false

/-- Provider behaviour exercising the probing search: the first
combination (endpoint 0, host 0, parameter schema 0) answers every page
with a full page of 50 items (each item records its page number); every
other combination raises. -/
def fetchC2 : Nat → Nat → Nat → Nat → Except Unit (List Nat) :=
  fun e h p pg => if e = 0 ∧ h = 0 ∧ p = 0 then .ok (List.replicate 50 pg) else .error ()

/-- The spec's web-sub-resolver scenario: a result for seller
`"Tienda de Juan"` whose snippet contains the phone string
`"+54 11 1234-5678"` and the email `"contacto@tiendadejuan.com"`. -/
def juanItem : GItem :=
  ⟨"Tienda de Juan".data,
   "Contacto: +54 11 1234-5678 contacto@tiendadejuan.com".data,
   "https://facebook.com/tiendadejuan".data⟩

/-! Helper lemmas. -/

/-- Looking up a key just stored finds the stored value. -/
theorem dictFind_dictUpd_self {β : Type} (key : PyStr) (v : β) (st : List (PyStr × β)) :
    dictFind key (dictUpd key v st) = some v := by
  induction st with
  | nil => simp [dictUpd, dictFind]
  | cons kw rest ih =>
    obtain ⟨k, w⟩ := kw
    by_cases hk : k = key
    · simp [dictUpd, dictFind, hk]
    · simp [dictUpd, dictFind, hk, ih]

/-- A digit differs from any non-digit character. -/
theorem ne_of_digit {c d : Char} (h : c.isDigit = true) (hd : d.isDigit = false) :
    c ≠ d := by
  intro he
  subst he
  rw [h] at hd
  cases hd

/-- Digits are not whitespace. -/
theorem digit_not_ws {c : Char} (h : c.isDigit = true) : c.isWhitespace = false := by
  have h1 : c ≠ ' ' := ne_of_digit h (by decide)
  have h2 : c ≠ '\t' := ne_of_digit h (by decide)
  have h3 : c ≠ '\r' := ne_of_digit h (by decide)
  have h4 : c ≠ '\n' := ne_of_digit h (by decide)
  simp [Char.isWhitespace, h1, h2, h3, h4]

/-- `dropWhile` is the identity when no element satisfies the
predicate. -/
theorem dropWhile_eq_self_of (p : Char → Bool) (s : PyStr)
    (h : ∀ c ∈ s, p c = false) : s.dropWhile p = s := by
  cases s with
  | nil => rfl
  | cons c rest => simp [List.dropWhile_cons, h c (by simp)]

/-- Unfolding equation of `trimEnd`. -/
theorem trimEnd_cons (c : Char) (rest : PyStr) :
    trimEnd (c :: rest) =
      if trimEnd rest = [] ∧ c.isWhitespace then [] else c :: trimEnd rest := rfl

/-- `trimEnd` is the identity when nothing is whitespace. -/
theorem trimEnd_eq_self_of (s : PyStr) (h : ∀ c ∈ s, c.isWhitespace = false) :
    trimEnd s = s := by
  induction s with
  | nil => rfl
  | cons c rest ih =>
    rw [trimEnd_cons, ih (fun d hd => h d (by simp [hd])), if_neg]
    intro hcontra
    rw [h c (by simp)] at hcontra
    exact Bool.false_ne_true hcontra.2

/-- `pyTrim` is the identity when nothing is whitespace. -/
theorem pyTrim_eq_self_of (s : PyStr) (h : ∀ c ∈ s, c.isWhitespace = false) :
    pyTrim s = s := by
  unfold pyTrim
  rw [dropWhile_eq_self_of _ _ h, trimEnd_eq_self_of _ h]

/-- `trimEnd` is idempotent. -/
theorem trimEnd_idem (s : PyStr) : trimEnd (trimEnd s) = trimEnd s := by
  induction s with
  | nil => rfl
  | cons c rest ih =>
    rw [trimEnd_cons]
    by_cases hc : trimEnd rest = [] ∧ c.isWhitespace
    · rw [if_pos hc]
      rfl
    · rw [if_neg hc, trimEnd_cons, ih, if_neg hc]

/-- The head surviving `dropWhile` fails the predicate. -/
theorem dropWhile_head_false (p : Char → Bool) (s : PyStr) :
    s.dropWhile p = [] ∨
      ∃ c t, s.dropWhile p = c :: t ∧ p c = false := by
  induction s with
  | nil => exact Or.inl rfl
  | cons c rest ih =>
    by_cases hc : p c = true
    · simpa [List.dropWhile_cons, hc] using ih
    · exact Or.inr ⟨c, rest, by simp [List.dropWhile_cons, hc], by simpa using hc⟩

/-- `trimEnd` preserves the head (or empties the list). -/
theorem trimEnd_head (c : Char) (rest : PyStr) :
    trimEnd (c :: rest) = [] ∨ ∃ r, trimEnd (c :: rest) = c :: r := by
  rw [trimEnd_cons]
  by_cases hc : trimEnd rest = [] ∧ c.isWhitespace
  · exact Or.inl (if_pos hc)
  · exact Or.inr ⟨trimEnd rest, if_neg hc⟩

/-- `pyTrim` is idempotent. -/
theorem pyTrim_idem (s : PyStr) : pyTrim (pyTrim s) = pyTrim s := by
  unfold pyTrim
  rcases dropWhile_head_false Char.isWhitespace s with hu | ⟨c, t, hu, hc⟩
  · rw [hu]
    rfl
  · rw [hu]
    rcases trimEnd_head c t with he | ⟨r, he⟩
    · rw [he]
      rfl
    · rw [he, List.dropWhile_cons, hc]
      simp only [Bool.false_eq_true, if_false]
      have := trimEnd_idem (c :: t)
      rwa [he] at this

/-- `pyReplaceFuel` is the identity when the pattern never occurs. -/
theorem pyReplaceFuel_eq_self_of (old new : PyStr) (hold : old ≠ []) :
    ∀ (s : PyStr) (fuel : Nat), containsSub old s = false →
      pyReplaceFuel old new fuel s = s := by
  intro s
  induction s with
  | nil => intro fuel _; cases fuel <;> rfl
  | cons c rest ih =>
    intro fuel hocc
    rw [containsSub, Bool.or_eq_false_iff] at hocc
    cases fuel with
    | zero => rfl
    | succ n =>
      rw [pyReplaceFuel, if_neg, ih n hocc.2]
      intro hcontra
      rw [hocc.1] at hcontra
      exact Bool.false_ne_true hcontra.2

/-- `pyReplace` is the identity when the pattern never occurs. -/
theorem pyReplace_eq_self_of (old new s : PyStr) (hold : old ≠ [])
    (hocc : containsSub old s = false) : pyReplace old new s = s :=
  pyReplaceFuel_eq_self_of old new hold s s.length hocc

/-- `normSellerName` is idempotent on names in which `"Por "` no longer
occurs. -/
theorem normSellerName_stable (n : PyStr)
    (hocc : containsSub ("Por ".data) (normSellerName n) = false) :
    normSellerName (normSellerName n) = normSellerName n := by
  unfold normSellerName at hocc ⊢
  rw [pyReplace_eq_self_of _ _ _ (by decide) hocc, pyTrim_idem]

/-- `map` is the identity when `f` fixes every element. -/
theorem map_id_of (f : Char → Char) (l : PyStr) (h : ∀ c ∈ l, f c = c) :
    l.map f = l := by
  induction l with
  | nil => rfl
  | cons c rest ih => simp [h c (by simp), ih (fun d hd => h d (by simp [hd]))]

/-- `splitChar` never returns an empty group list. -/
theorem splitChar_ne_nil (ch : Char) (s : PyStr) : splitChar ch s ≠ [] := by
  cases s with
  | nil => simp [splitChar]
  | cons c rest =>
    rw [splitChar]
    rcases hrec : splitChar ch rest with _ | ⟨g, gs⟩
    · simp
    · by_cases hc : c = ch <;> simp [hc]

/-- `splitChar` on a separator-free list is one group. -/
theorem splitChar_of_not_mem (ch : Char) (s : PyStr) (h : ∀ c ∈ s, c ≠ ch) :
    splitChar ch s = [s] := by
  induction s with
  | nil => rfl
  | cons c rest ih =>
    rw [splitChar, ih (fun d hd => h d (by simp [hd]))]
    simp [h c (by simp)]

/-- `splitChar` around one explicit separator. -/
theorem splitChar_append (ch : Char) (a b : PyStr) (ha : ∀ c ∈ a, c ≠ ch) :
    splitChar ch (a ++ ch :: b) = a :: splitChar ch b := by
  induction a with
  | nil =>
    rw [List.nil_append, splitChar]
    rcases hrec : splitChar ch b with _ | ⟨g, gs⟩
    · exact absurd hrec (splitChar_ne_nil ch b)
    · simp
  | cons c a' ih =>
    rw [List.cons_append, splitChar, ih (fun d hd => ha d (by simp [hd]))]
    simp [ha c (by simp)]

/-- `priceClean` turns a pure digits-comma-digits string into the
corresponding digits-point-digits string. -/
theorem priceClean_digits (a b : PyStr) (ha : ∀ c ∈ a, c.isDigit = true)
    (hb : ∀ c ∈ b, c.isDigit = true) :
    priceClean (a ++ ',' :: b) = a ++ '.' :: b := by
  unfold priceClean
  have hdigitKeep : ∀ c : Char, c.isDigit = true → ¬ (c = '$' ∨ c = ' ') := by
    intro c hc
    rintro (h1 | h1) <;> exact ne_of_digit hc (by decide) h1
  have hfilter : (a ++ ',' :: b).filter (fun c => ¬ (c = '$' ∨ c = ' ')) = a ++ ',' :: b := by
    rw [List.filter_eq_self]
    intro c hc
    rcases List.mem_append.mp hc with h | h
    · simpa using hdigitKeep c (ha c h)
    · rcases List.mem_cons.mp h with h1 | h1
      · subst h1; decide
      · simpa using hdigitKeep c (hb c h1)
  rw [hfilter, List.map_append, List.map_cons]
  have hmapa : a.map (fun c => if c = ',' then '.' else c) = a :=
    map_id_of _ a (fun c hc => if_neg (ne_of_digit (ha c hc) (by decide)))
  have hmapb : b.map (fun c => if c = ',' then '.' else c) = b :=
    map_id_of _ b (fun c hc => if_neg (ne_of_digit (hb c hc) (by decide)))
  rw [hmapa, hmapb]
  simp only [if_pos rfl]
  apply pyTrim_eq_self_of
  intro c hc
  rcases List.mem_append.mp hc with h | h
  · exact digit_not_ws (ha c h)
  · rcases List.mem_cons.mp h with h1 | h1
    · subst h1; decide
    · exact digit_not_ws (hb c h1)

/-- `pyFloatParts` on a digits-point-digits string. -/
theorem pyFloatParts_digits (a b : PyStr) (hane : a ≠ [])
    (ha : ∀ c ∈ a, c.isDigit = true) (hb : ∀ c ∈ b, c.isDigit = true) :
    pyFloatParts (a ++ '.' :: b) = some (false, digitsToNat a, digitsToNat b, b.length) := by
  rcases a with _ | ⟨c, a'⟩
  · exact absurd rfl hane
  · have hc := ha c (by simp)
    have hsign : pySign ((c :: a') ++ '.' :: b) = (false, (c :: a') ++ '.' :: b) := by
      rw [List.cons_append, pySign,
        if_neg (ne_of_digit hc (by decide)), if_neg (ne_of_digit hc (by decide))]
    have hsplit : splitChar '.' ((c :: a') ++ '.' :: b) = [c :: a', b] := by
      rw [splitChar_append '.' (c :: a') b
        (fun d hd => ne_of_digit (ha d hd) (by decide)),
        splitChar_of_not_mem '.' b (fun d hd => ne_of_digit (hb d hd) (by decide))]
    unfold pyFloatParts
    rw [hsign]
    simp only []
    rw [hsplit]
    have hcond : ((c :: a' : PyStr) ≠ [] ∨ b ≠ []) ∧
        allDigits (c :: a') = true ∧ allDigits b = true := by
      refine ⟨Or.inl (by simp), ?_, ?_⟩
      · rw [allDigits, List.all_eq_true]
        exact fun d hd => ha d hd
      · rw [allDigits, List.all_eq_true]
        exact fun d hd => hb d hd
    show (if ((c :: a' : PyStr) ≠ [] ∨ b ≠ []) ∧
        allDigits (c :: a') = true ∧ allDigits b = true then
        some (false, digitsToNat (c :: a'), digitsToNat b, b.length) else none) =
      some (false, digitsToNat (c :: a'), digitsToNat b, b.length)
    rw [if_pos hcond]

/-! Claim theorems. -/

/-- Claim C8 counterexample: a localized price string with a thousands
separator and a decimal comma is NOT parsed to its numeric value —
`_parse_price("1.234,56")` yields 0, not 1234.56. -/
theorem C8_price_parse_counterexample :
    parsePrice (.pvStr ("1.234,56".data)) = 0
    ∧ parsePrice (.pvStr ("1.234,56".data)) ≠ 123456 / 100 := by
  have h : parsePrice (.pvStr ("1.234,56".data)) = 0 := by decide
  refine ⟨h, ?_⟩
  rw [h]
  norm_num

/-- Claim C8 amended: a decimal-comma price string without a thousands
separator (digits, one comma, digits) parses to the denoted numeric
value; every string Python `float()` rejects after the clean-up yields
price 0 (and `_parse_price` is a total function — no exception
escapes). -/
theorem C8_price_parse_amended :
    (∀ a b : PyStr, a ≠ [] → (∀ c ∈ a, c.isDigit = true) → (∀ c ∈ b, c.isDigit = true) →
      parsePrice (.pvStr (a ++ ',' :: b)) =
        (digitsToNat a : ℚ) + (digitsToNat b : ℚ) / 10 ^ b.length)
    ∧ (∀ s : PyStr, pyFloatParts (priceClean s) = none → parsePrice (.pvStr s) = 0) := by
  constructor
  · intro a b hane ha hb
    rw [parsePrice, pyFloat, priceClean_digits a b ha hb,
      pyFloatParts_digits a b hane ha hb]
    simp [partsToRat]
  · intro s hs
    rw [parsePrice, pyFloat, hs]
    rfl

/-- Claim C8 amended, witness: the string `"1234,56"` parses to
1234.56. -/
theorem C8_price_parse_amended_witness :
    ("1234".data ≠ [] ∧ (∀ c ∈ ("1234".data), c.isDigit = true)
      ∧ (∀ c ∈ ("56".data), c.isDigit = true))
    ∧ parsePrice (.pvStr ("1234".data ++ ',' :: "56".data)) =
        (digitsToNat ("1234".data) : ℚ) + (digitsToNat ("56".data) : ℚ) / 10 ^ ("56".data).length :=
  ⟨⟨by decide, by decide, by decide⟩,
    C8_price_parse_amended.1 ("1234".data) ("56".data) (by decide) (by decide) (by decide)⟩

/-- Claim C9 counterexample: seller-name normalization is not
idempotent — normalizing the raw seller string `"PorPor  Juan"` yields
the nickname `"Por Juan"`, and normalizing that already-normalized
seller again strips further, to `"Juan"`. -/
theorem C9_normalization_counterexample :
    (extractSellerInfo (.svStr ("PorPor  Juan".data))).nickname = "Por Juan".data
    ∧ extractSellerInfo (sellerToVal (extractSellerInfo (.svStr ("PorPor  Juan".data)))) ≠
        extractSellerInfo (.svStr ("PorPor  Juan".data)) := by
  exact ⟨by decide, by decide⟩

/-- Claim C9 amended: price parsing is idempotent on already-numeric
prices, and seller normalization is idempotent exactly on those
normalized listings whose seller nickname no longer contains `"Por "`
(on other listings a second normalization strips further). -/
theorem C9_normalization_amended :
    (∀ q : ℚ, parsePrice (.pvNum q) = q)
    ∧ ∀ v : SellerVal, containsSub ("Por ".data) (extractSellerInfo v).nickname = false →
        extractSellerInfo (sellerToVal (extractSellerInfo v)) = extractSellerInfo v := by
  constructor
  · intro q
    rfl
  · intro v hocc
    cases v with
    | svStr s =>
      simp only [extractSellerInfo, sellerToVal] at hocc ⊢
      rw [normSellerName_stable s hocc]
    | svDict sid nick lvl comp =>
      simp only [extractSellerInfo, sellerToVal] at hocc ⊢
      rw [normSellerName_stable nick hocc]

/-- Claim C9 amended, witness: the raw seller string `"Por Juan Perez"`
normalizes to `"Juan Perez"` and re-normalizing is the identity. -/
theorem C9_normalization_amended_witness :
    (containsSub ("Por ".data)
        (extractSellerInfo (.svStr ("Por Juan Perez".data))).nickname = false)
    ∧ extractSellerInfo (sellerToVal (extractSellerInfo (.svStr ("Por Juan Perez".data)))) =
        extractSellerInfo (.svStr ("Por Juan Perez".data)) :=
  ⟨by decide, C9_normalization_amended.2 (.svStr ("Por Juan Perez".data)) (by decide)⟩

/-- The page loop either accumulates nothing or stops at the first
non-empty fetched page and returns exactly its results. -/
theorem mlPagesGo_spec {α : Type} (fetch : Nat → Nat → Nat → Nat → Except Unit (List α))
    (e h p : Nat) :
    ∀ (pages : List Nat) (st : MLProbeState α), st.allResults = [] →
      (mlPagesGo fetch e h p pages st).allResults = [] ∨
      ∃ pg r, fetch e h p pg = .ok r ∧ r ≠ [] ∧
        (mlPagesGo fetch e h p pages st).allResults = r := by
  intro pages
  induction pages with
  | nil => intro st hst; exact Or.inl hst
  | cons pg rest ih =>
    intro st hst
    rw [mlPagesGo]
    by_cases hc : st.consecEmpty ≥ 3
    · rw [if_pos hc]; exact Or.inl hst
    · rw [if_neg hc]
      cases hf : fetch e h p pg with
      | error err =>
        exact ih ⟨st.allResults, st.consecEmpty + 1⟩ hst
      | ok r =>
        cases r with
        | nil => exact ih ⟨st.allResults, st.consecEmpty + 1⟩ hst
        | cons x xs =>
          right
          refine ⟨pg, x :: xs, hf, by simp, ?_⟩
          simp [hst]

/-- The parameter-schema loop, lifted from the page loop. -/
theorem mlParamsGo_spec {α : Type} (fetch : Nat → Nat → Nat → Nat → Except Unit (List α))
    (e h maxPages : Nat) :
    ∀ (ps : List Nat) (st : MLProbeState α), st.allResults = [] →
      (mlParamsGo fetch e h maxPages ps st).allResults = [] ∨
      ∃ p pg r, fetch e h p pg = .ok r ∧ r ≠ [] ∧
        (mlParamsGo fetch e h maxPages ps st).allResults = r := by
  intro ps
  induction ps with
  | nil => intro st hst; exact Or.inl hst
  | cons p ps' ih =>
    intro st hst
    rw [mlParamsGo]
    rcases mlPagesGo_spec fetch e h p (List.range maxPages) st hst with h1 | ⟨pg, r, hf, hr, h1⟩
    · have hE : (mlPagesGo fetch e h p (List.range maxPages) st).allResults.isEmpty = true := by
        rw [h1]; rfl
      rw [if_pos hE]
      exact ih _ h1
    · have hE : (mlPagesGo fetch e h p (List.range maxPages) st).allResults.isEmpty = false := by
        rw [h1]
        cases r with
        | nil => exact absurd rfl hr
        | cons y ys => rfl
      rw [if_neg (by simp [hE])]
      exact Or.inr ⟨p, pg, r, hf, hr, h1⟩

/-- The host loop, lifted from the parameter-schema loop. -/
theorem mlHostsGo_spec {α : Type} (fetch : Nat → Nat → Nat → Nat → Except Unit (List α))
    (e maxPages : Nat) :
    ∀ (hs : List Nat) (st : MLProbeState α), st.allResults = [] →
      (mlHostsGo fetch e maxPages hs st).allResults = [] ∨
      ∃ h p pg r, fetch e h p pg = .ok r ∧ r ≠ [] ∧
        (mlHostsGo fetch e maxPages hs st).allResults = r := by
  intro hs
  induction hs with
  | nil => intro st hst; exact Or.inl hst
  | cons h hs' ih =>
    intro st hst
    rw [mlHostsGo]
    rcases mlParamsGo_spec fetch e h maxPages (List.range 4) st hst with h1 | ⟨p, pg, r, hf, hr, h1⟩
    · have hE : (mlParamsGo fetch e h maxPages (List.range 4) st).allResults.isEmpty = true := by
        rw [h1]; rfl
      rw [if_pos hE]
      exact ih _ h1
    · have hE : (mlParamsGo fetch e h maxPages (List.range 4) st).allResults.isEmpty = false := by
        rw [h1]
        cases r with
        | nil => exact absurd rfl hr
        | cons y ys => rfl
      rw [if_neg (by simp [hE])]
      exact Or.inr ⟨h, p, pg, r, hf, hr, h1⟩

/-- The endpoint loop, lifted from the host loop. -/
theorem mlEndpointsGo_spec {α : Type} (fetch : Nat → Nat → Nat → Nat → Except Unit (List α))
    (maxPages : Nat) :
    ∀ (es : List Nat) (st : MLProbeState α), st.allResults = [] →
      (mlEndpointsGo fetch maxPages es st).allResults = [] ∨
      ∃ e h p pg r, fetch e h p pg = .ok r ∧ r ≠ [] ∧
        (mlEndpointsGo fetch maxPages es st).allResults = r := by
  intro es
  induction es with
  | nil => intro st hst; exact Or.inl hst
  | cons e es' ih =>
    intro st hst
    rw [mlEndpointsGo]
    have hst0 : (⟨st.allResults, 0⟩ : MLProbeState α).allResults = [] := hst
    rcases mlHostsGo_spec fetch e maxPages (List.range 3) ⟨st.allResults, 0⟩ hst0 with
      h1 | ⟨h, p, pg, r, hf, hr, h1⟩
    · have hE : (mlHostsGo fetch e maxPages (List.range 3)
          (⟨st.allResults, 0⟩ : MLProbeState α)).allResults.isEmpty = true := by
        rw [h1]; rfl
      rw [if_pos hE]
      exact ih _ h1
    · have hE : (mlHostsGo fetch e maxPages (List.range 3)
          (⟨st.allResults, 0⟩ : MLProbeState α)).allResults.isEmpty = false := by
        rw [h1]
        cases r with
        | nil => exact absurd rfl hr
        | cons y ys => rfl
      rw [if_neg (by simp [hE])]
      exact Or.inr ⟨e, h, p, pg, r, hf, hr, h1⟩

/-- Claim C2 counterexample: with the first combination answering every
page with a full page of 50 items and max_pages = 30, the probing search
returns exactly the 50 items of page 0 — it does not request further
pages even though page 0 was full, no minimum-listings threshold was
reached (none exists in the code), and max_pages was not exhausted. -/
theorem C2_probe_counterexample :
    mlComplexSearch fetchC2 30 = List.replicate 50 0
    ∧ mlComplexSearch fetchC2 30 ≠ List.replicate 50 0 ++ List.replicate 50 1 := by
  exact ⟨by decide, by decide⟩

/-- Claim C2 amended: the probing search walks the combinations in the
fixed priority order and stops the entire probe at the first page whose
(shape-normalized) result list is non-empty — regardless of seller
identity — returning exactly that one page's results; if no page ever
yields results it returns the empty list. -/
theorem C2_probe_amended {α : Type} (fetch : Nat → Nat → Nat → Nat → Except Unit (List α))
    (maxPages : Nat) :
    mlComplexSearch fetch maxPages = [] ∨
    ∃ e h p pg r, fetch e h p pg = .ok r ∧ r ≠ [] ∧ mlComplexSearch fetch maxPages = r := by
  unfold mlComplexSearch
  exact mlEndpointsGo_spec fetch maxPages (List.range 5) ⟨[], 0⟩ rfl

/-- Claim C5 counterexample: on the spec's scenario text the resolved
phone is not the mobile-normalized `"+5491112345678"` the spec states —
the matched number already starts with the country code 54, so the
code's length-8 branch does not fire and no mobile-indicator 9 is
injected. -/
theorem C5_phone_normalization_counterexample :
    (searchSellerContacts [juanItem]).phone ≠ some ("+5491112345678".data)
    ∧ (searchSellerContacts [juanItem]).phone = some ("+541112345678".data) := by
  exact ⟨by decide, by decide⟩

/-- Claim C5 amended: on the scenario text (snippet containing
`"+54 11 1234-5678"` and `"contacto@tiendadejuan.com"`) the resolved
record has phone `"+541112345678"` (country code kept, no
mobile-indicator digit injected) and email
`"contacto@tiendadejuan.com"`. -/
theorem C5_phone_normalization_amended :
    (searchSellerContacts [juanItem]).phone = some ("+541112345678".data)
    ∧ (searchSellerContacts [juanItem]).email = some ("contacto@tiendadejuan.com".data) := by
  exact ⟨by decide, by decide⟩

/-- Claim C4: when both sub-resolvers raise, `get_contact_info` (strategy
`"all"`) still returns a result record — an error status with empty
contact data — and neither exception escapes: the call is equal to a
plain record value for every formatter behaviour. -/
theorem C4_contact_facade_total_failure {α β γ : Type} (hasWeb : Bool)
    (formatResults hasFormatter : Bool) (fmtRes : Except Unit γ) :
    getContactInfo ("all".data) hasWeb (Except.error () : Except Unit α)
      (Except.error () : Except Unit β) formatResults hasFormatter fmtRes =
      ⟨"error".data, "No se encontraron resultados".data, none, none, none⟩ := by
  cases hasWeb <;> cases formatResults <;> cases hasFormatter <;> rfl

/-- Claim C3 counterexample: in the `search_agent` implementation of the
cache (one of the two implementations the claim covers), with the
networked store unreachable, `set` followed by `get` on the same key
well within the TTL returns absent — not the stored value. -/
theorem C3_cache_fallback_counterexample :
    (saGet (saSet (SAConn.disconnected : SAConn ℕ) ("k".data) 7 60 0).2
        ("k".data) none 10 = none)
    ∧ (none : Option ℕ) ≠ some 7 := by
  exact ⟨rfl, by simp⟩

/-- Claim C3 amended: in the in-process fallback path of
`services/cache_manager.py` (store unreachable, `use_redis = False`),
`set` then `get` on the same key before expiry returns the stored value,
and at or after expiry returns absent. -/
theorem C3_cache_fallback_amended {α : Type} (st : MemCache α) (key : PyStr) (v : α)
    (ttl now now' : ℤ) (httl : 0 < ttl) :
    (now' < now + ttl → (memGet (memSet st key v ttl now).2 key now').1 = some v)
    ∧ (now + ttl ≤ now' → (memGet (memSet st key v ttl now).2 key now').1 = none) := by
  have hfind := dictFind_dictUpd_self key (v, now + ttl) st
  constructor
  · intro hlt
    simp [memGet, memSet, hfind, hlt]
  · intro hge
    have : ¬ now + ttl > now' := by omega
    simp [memGet, memSet, hfind, this]

/-- Claim C3 amended, witness at a concrete instance: key `"k"`,
value 3, TTL 60, set at time 0, read at times 10 and 61. -/
theorem C3_cache_fallback_amended_witness :
    (0:ℤ) < 60 ∧ (10:ℤ) < 0 + 60 ∧ (0:ℤ) + 60 ≤ 61 ∧
      (memGet (memSet ([] : MemCache ℕ) ("k".data) 3 60 0).2 ("k".data) 10).1 = some 3 ∧
      (memGet (memSet ([] : MemCache ℕ) ("k".data) 3 60 0).2 ("k".data) 61).1 = none :=
  ⟨by decide, by decide, by decide,
    (C3_cache_fallback_amended [] (("k".data)) 3 60 0 10 (by decide)).1 (by decide),
    (C3_cache_fallback_amended [] (("k".data)) 3 60 0 61 (by decide)).2 (by decide)⟩

/-- Claim C6: a listing whose seller nickname is the empty string, whose
effective (eshop-fallback) nickname matches no excluded-brand substring,
and whose price and condition are within the configured bounds, is
retained by the filter stage. -/
theorem C6_filter_keeps_empty_seller (cfg : FilterConfig) (listings : List Product)
    (item : Product) (hmem : item ∈ listings)
    (hnick : rawNick item = [])
    (hbrand : pyLower (effNick item) ≠ [] →
      ∀ b ∈ cfg.excludedBrands, containsSub b (pyLower (effNick item)) = false)
    (hpmin : ¬ item.price < cfg.minPrice) (hpmax : ¬ item.price > cfg.maxPrice)
    (hcond : cfg.allowedConditions.contains item.condition = true) :
    item ∈ filterListings cfg listings := by
  have hkeep : filterKeep cfg item = true := by
    unfold filterKeep
    rw [if_neg (by tauto), if_neg (not_not_intro hcond)]
    by_cases hempty : pyLower (effNick item) = []
    · simp [hempty]
    · have hany : cfg.excludedBrands.any
          (fun b => containsSub b (pyLower (effNick item))) = false := by
        rw [List.any_eq_false]
        intro b hb
        simp [hbrand hempty b hb]
      simp [hany]
  exact List.mem_filter.mpr ⟨hmem, hkeep⟩

/-- Claim C6, witness: an empty-seller listing (price 100, condition
`new`) survives filtering with brands `["samsung"]`, price bounds
`[0, 10000]` and allowed conditions `["new"]`. -/
theorem C6_filter_keeps_empty_seller_witness :
    (rawNick ⟨"X1".data, "tv".data, 100, "new".data, 0,
        some ⟨none, [], none, none, 0⟩, none⟩ = []) ∧
    ⟨"X1".data, "tv".data, 100, "new".data, 0, some ⟨none, [], none, none, 0⟩, none⟩ ∈
      filterListings ⟨[("samsung".data)], 0, 10000, [("new".data)]⟩
        [⟨"X1".data, "tv".data, 100, "new".data, 0, some ⟨none, [], none, none, 0⟩, none⟩] :=
  ⟨by decide,
    C6_filter_keeps_empty_seller _ _ _ (by decide) (by decide)
      (fun h => absurd (by decide : pyLower (effNick ⟨"X1".data, "tv".data, 100, "new".data, 0,
        some ⟨none, [], none, none, 0⟩, none⟩) = []) h)
      (by decide) (by decide) (by decide)⟩

/-- Claim C7 counterexample: with the source's default curve parameters
a price-0 listing scores exactly 0 while a price-100 listing scores
positive, so the cheaper listing's price factor is NOT greater than or
equal to the costlier one's. -/
theorem C7_price_monotonicity_counterexample :
    ¬ (calcPriceScore (some 0) 1000000 1000 100000 ≥
        calcPriceScore (some 100) 1000000 1000 100000) := by
  have h0 : calcPriceScore (some 0) 1000000 1000 100000 = 0 := by
    simp [calcPriceScore]
  have hexp : (0:ℝ) < 1 + Real.exp ((min (100:ℝ) 1000000 - 1000) / 100000) :=
    add_pos one_pos (Real.exp_pos _)
  have hy : (0:ℝ) < 1 / (1 + Real.exp ((min (100:ℝ) 1000000 - 1000) / 100000)) :=
    one_div_pos.mpr hexp
  have hpos : 0 < calcPriceScore (some 100) 1000000 1000 100000 := by
    have : ¬ ((100:ℝ) ≤ 0) := by norm_num
    simp only [calcPriceScore, this, if_false, clamp01]
    exact lt_max_of_lt_right (lt_min one_pos hy)
  intro hge
  rw [h0] at hge
  exact absurd (lt_of_lt_of_le hpos hge) (lt_irrefl 0)

/-- Claim C7 amended: for two listings identical except in their
(positive) prices, and a positive configured decay, the cheaper
listing's price factor is at least the costlier one's; a price less than
or equal to 0 scores exactly 0. -/
theorem C7_price_monotonicity_amended (p₁ p₂ maxPrice priceFloor priceDecay : ℝ)
    (h1 : 0 < p₁) (h12 : p₁ ≤ p₂) (hd : 0 < priceDecay) :
    calcPriceScore (some p₂) maxPrice priceFloor priceDecay ≤
      calcPriceScore (some p₁) maxPrice priceFloor priceDecay
    ∧ ∀ p : ℝ, p ≤ 0 → calcPriceScore (some p) maxPrice priceFloor priceDecay = 0 := by
  constructor
  · have h2 : 0 < p₂ := lt_of_lt_of_le h1 h12
    have hn1 : ¬ (p₁ ≤ 0) := not_le.mpr h1
    have hn2 : ¬ (p₂ ≤ 0) := not_le.mpr h2
    simp only [calcPriceScore, hn1, hn2, if_false]
    have harg : (min p₁ maxPrice - priceFloor) / priceDecay ≤
        (min p₂ maxPrice - priceFloor) / priceDecay := by
      exact div_le_div_of_nonneg_right
        (sub_le_sub_right (min_le_min h12 le_rfl) priceFloor) hd.le
    have hexp1 : (0:ℝ) < 1 + Real.exp ((min p₁ maxPrice - priceFloor) / priceDecay) :=
      add_pos one_pos (Real.exp_pos _)
    have hinv : 1 / (1 + Real.exp ((min p₂ maxPrice - priceFloor) / priceDecay)) ≤
        1 / (1 + Real.exp ((min p₁ maxPrice - priceFloor) / priceDecay)) := by
      apply one_div_le_one_div_of_le hexp1
      exact add_le_add_left (Real.exp_le_exp.mpr harg) 1
    exact max_le_max le_rfl (min_le_min le_rfl hinv)
  · intro p hp
    simp [calcPriceScore, hp]

/-- Claim C7 amended, witness: prices 500 and 2000 under the source's
default curve parameters. -/
theorem C7_price_monotonicity_amended_witness :
    (0:ℝ) < 500 ∧ (500:ℝ) ≤ 2000 ∧ (0:ℝ) < 100000 ∧
      (calcPriceScore (some 2000) 1000000 1000 100000 ≤
        calcPriceScore (some 500) 1000000 1000 100000
      ∧ ∀ p : ℝ, p ≤ 0 → calcPriceScore (some p) 1000000 1000 100000 = 0) :=
  ⟨by norm_num, by norm_num, by norm_num,
    C7_price_monotonicity_amended 500 2000 1000000 1000 100000
      (by norm_num) (by norm_num) (by norm_num)⟩

/-- Elements produced by a descending insertion come from the inserted
element or the old list. -/
theorem mem_insDescBy {α : Type} (key : α → ℝ) (x : α) :
    ∀ (l : List α) (j : α), j ∈ insDescBy key x l → j = x ∨ j ∈ l := by
  intro l
  induction l with
  | nil =>
    intro j hj
    rw [insDescBy] at hj
    exact Or.inl (List.mem_singleton.mp hj)
  | cons y ys ih =>
    intro j hj
    rw [insDescBy] at hj
    by_cases hcmp : key y < key x
    · rw [if_pos hcmp] at hj
      rcases List.mem_cons.mp hj with h | h
      · exact Or.inl h
      · exact Or.inr h
    · rw [if_neg hcmp] at hj
      rcases List.mem_cons.mp hj with h | h
      · exact Or.inr (by simp [h])
      · rcases ih j h with h1 | h1
        · exact Or.inl h1
        · exact Or.inr (by simp [h1])

/-- Elements of the stable descending sort come from the input list. -/
theorem mem_sortDescBy {α : Type} (key : α → ℝ) :
    ∀ (l acc : List α) (j : α),
      j ∈ l.foldl (fun acc x => insDescBy key x acc) acc → j ∈ acc ∨ j ∈ l := by
  intro l
  induction l with
  | nil => intro acc j hj; exact Or.inl hj
  | cons x xs ih =>
    intro acc j hj
    rw [List.foldl_cons] at hj
    rcases ih (insDescBy key x acc) j hj with h | h
    · rcases mem_insDescBy key x acc j h with h1 | h1
      · exact Or.inr (by simp [h1])
      · exact Or.inl h1
    · exact Or.inr (by simp [h])

/-- Invariant of the score-and-copy fold of `rank_products` over the
dictionary heap: the heap only grows, every cell below the original
heap length is untouched, and every emitted reference is fresh and
holds a copy of its source dictionary with the `_ranking_score` entry
set. -/
theorem rankFold_spec (cfg : RankConfig) (arena : List ProdDict) (R : Nat → Prop) :
    ∀ (refs : List Nat) (ar0 : List ProdDict) (out0 : List Nat),
      arena.length ≤ ar0.length →
      (∀ j : Nat, j < arena.length → ar0[j]? = arena[j]?) →
      (∀ i ∈ refs, i < arena.length ∧ R i) →
      (∀ j ∈ out0, arena.length ≤ j ∧ j < ar0.length ∧
        ∃ i, R i ∧ i < arena.length ∧
          ar0.getD j (emptyProduct, none) =
            ((arena.getD i (emptyProduct, none)).1,
             some (calcScore cfg (arena.getD i (emptyProduct, none)).1))) →
      arena.length ≤ (refs.foldl (rankStep cfg) (ar0, out0)).1.length ∧
      (∀ j : Nat, j < arena.length → (refs.foldl (rankStep cfg) (ar0, out0)).1[j]? = arena[j]?) ∧
      (∀ j ∈ (refs.foldl (rankStep cfg) (ar0, out0)).2, arena.length ≤ j ∧
        j < (refs.foldl (rankStep cfg) (ar0, out0)).1.length ∧
        ∃ i, R i ∧ i < arena.length ∧
          (refs.foldl (rankStep cfg) (ar0, out0)).1.getD j (emptyProduct, none) =
            ((arena.getD i (emptyProduct, none)).1,
             some (calcScore cfg (arena.getD i (emptyProduct, none)).1))) := by
  intro refs
  induction refs with
  | nil =>
    intro ar0 out0 hlen hpre hrefs hout
    exact ⟨hlen, hpre, hout⟩
  | cons i rest ih =>
    intro ar0 out0 hlen hpre hrefs hout
    rw [List.foldl_cons]
    have hi : i < arena.length := (hrefs i (by simp)).1
    have hiR : R i := (hrefs i (by simp)).2
    -- the step
    have hstep : rankStep cfg (ar0, out0) i =
        ((ar0 ++ [ar0.getD i (emptyProduct, none)]).set ar0.length
          ((ar0.getD i (emptyProduct, none)).1,
           some (calcScore cfg (ar0.getD i (emptyProduct, none)).1)),
         out0 ++ [ar0.length]) := rfl
    set d := ar0.getD i (emptyProduct, none) with hd
    set ar2 := (ar0 ++ [d]).set ar0.length (d.1, some (calcScore cfg d.1)) with har2
    have hlen2 : ar2.length = ar0.length + 1 := by
      rw [har2, List.length_set, List.length_append]
      rfl
    have hframe : ∀ j : Nat, j < ar0.length → ar2[j]? = ar0[j]? := by
      intro j hj
      rw [har2, List.getElem?_set_ne (Nat.ne_of_gt hj), List.getElem?_append_left hj]
    have hnew : ar2[ar0.length]? = some (d.1, some (calcScore cfg d.1)) := by
      rw [har2, List.getElem?_set_self]
      rw [List.length_append]
      exact Nat.lt_succ_self _
    have hdval : d = arena.getD i (emptyProduct, none) := by
      rw [hd, List.getD_eq_getElem?_getD, List.getD_eq_getElem?_getD,
        hpre i hi]
    rw [hstep]
    apply ih ar2 (out0 ++ [ar0.length])
    · rw [hlen2]
      exact Nat.le_succ_of_le hlen
    · intro j hj
      rw [hframe j (lt_of_lt_of_le hj hlen)]
      exact hpre j hj
    · intro i' hi'
      exact hrefs i' (by simp [hi'])
    · intro j hj
      rcases List.mem_append.mp hj with hjold | hjnew
      · obtain ⟨h1, h2, i', hi'R, hi'lt, hcont⟩ := hout j hjold
        refine ⟨h1, by omega, i', hi'R, hi'lt, ?_⟩
        rw [List.getD_eq_getElem?_getD, hframe j h2, ← List.getD_eq_getElem?_getD]
        exact hcont
      · have hjeq : j = ar0.length := List.mem_singleton.mp hjnew
        subst hjeq
        refine ⟨hlen, by omega, i, hiR, hi, ?_⟩
        rw [List.getD_eq_getElem?_getD, hnew, hdval]
        rfl

/-- Claim C10: `rank_products` does not mutate its input — the original
heap cells are unchanged (the returned heap extends the original one),
and every returned reference is fresh (beyond the original heap) and
holds a copy of one of the input products with the `_ranking_score`
entry set to the product's score. -/
theorem C10_rank_products_no_mutation (cfg : RankConfig) (arena : List ProdDict)
    (refs : List Nat) (limit : Nat) (hvalid : ∀ i ∈ refs, i < arena.length) :
    (rankProductsArena cfg arena refs limit).1.take arena.length = arena
    ∧ ∀ j ∈ (rankProductsArena cfg arena refs limit).2,
        arena.length ≤ j ∧
        ∃ i ∈ refs,
          (rankProductsArena cfg arena refs limit).1.getD j (emptyProduct, none) =
            ((arena.getD i (emptyProduct, none)).1,
             some (calcScore cfg (arena.getD i (emptyProduct, none)).1)) := by
  obtain ⟨hL, hP, hO⟩ := rankFold_spec cfg arena (· ∈ refs) refs arena []
    le_rfl (fun j _ => rfl) (fun i hi => ⟨hvalid i hi, hi⟩) (fun j hj => absurd hj (by simp))
  have hfst : (rankProductsArena cfg arena refs limit).1 =
      (refs.foldl (rankStep cfg) (arena, [])).1 := rfl
  constructor
  · rw [hfst]
    apply List.ext_getElem?
    intro n
    by_cases hn : n < arena.length
    · rw [List.getElem?_take_of_lt hn, hP n hn]
    · have h1 : ((refs.foldl (rankStep cfg) (arena, [])).1.take arena.length)[n]? = none := by
        apply List.getElem?_eq_none_iff.mpr
        calc ((refs.foldl (rankStep cfg) (arena, [])).1.take arena.length).length
            ≤ arena.length := by
              rw [List.length_take]
              exact min_le_left _ _
          _ ≤ n := Nat.le_of_not_lt hn
      have h2 : arena[n]? = none :=
        List.getElem?_eq_none_iff.mpr (Nat.le_of_not_lt hn)
      rw [h1, h2]
  · intro j hj
    have hj2 : j ∈ (refs.foldl (rankStep cfg) (arena, [])).2 := by
      have hsnd : (rankProductsArena cfg arena refs limit).2 =
          (if limit > 0 then
            (sortDescBy (fun k => (((refs.foldl (rankStep cfg) (arena, [])).1.getD k
              (emptyProduct, none)).2.getD 0))
              (refs.foldl (rankStep cfg) (arena, [])).2).take limit
          else sortDescBy (fun k => (((refs.foldl (rankStep cfg) (arena, [])).1.getD k
              (emptyProduct, none)).2.getD 0))
            (refs.foldl (rankStep cfg) (arena, [])).2) := rfl
      rw [hsnd] at hj
      have hsorted : j ∈ sortDescBy
          (fun k => (((refs.foldl (rankStep cfg) (arena, [])).1.getD k
            (emptyProduct, none)).2.getD 0))
          (refs.foldl (rankStep cfg) (arena, [])).2 := by
        by_cases hlim : limit > 0
        · rw [if_pos hlim] at hj
          exact List.take_subset _ _ hj
        · rw [if_neg hlim] at hj
          exact hj
      rcases mem_sortDescBy _ _ [] j hsorted with h | h
      · exact absurd h (by simp)
      · exact h
    obtain ⟨h1, _, i, hiR, _, hcont⟩ := hO j hj2
    exact ⟨h1, i, hiR, by rw [hfst]; exact hcont⟩

/-- Claim C10, witness: a one-product heap, reference list `[0]`,
limit 10. -/
theorem C10_rank_products_no_mutation_witness :
    (∀ i ∈ [0], i < ([((⟨"X1".data, "tv".data, 100, "new".data, 0, none, none⟩ : Product),
        (none : Option ℝ))] : List ProdDict).length)
    ∧ ((rankProductsArena defaultRankConfig
        [((⟨"X1".data, "tv".data, 100, "new".data, 0, none, none⟩ : Product), (none : Option ℝ))]
        [0] 10).1.take 1 =
        [((⟨"X1".data, "tv".data, 100, "new".data, 0, none, none⟩ : Product), (none : Option ℝ))]
      ∧ ∀ j ∈ (rankProductsArena defaultRankConfig
          [((⟨"X1".data, "tv".data, 100, "new".data, 0, none, none⟩ : Product),
            (none : Option ℝ))] [0] 10).2,
          ([((⟨"X1".data, "tv".data, 100, "new".data, 0, none, none⟩ : Product),
            (none : Option ℝ))] : List ProdDict).length ≤ j ∧
          ∃ i ∈ [0], (rankProductsArena defaultRankConfig
              [((⟨"X1".data, "tv".data, 100, "new".data, 0, none, none⟩ : Product),
                (none : Option ℝ))] [0] 10).1.getD j (emptyProduct, none) =
            ((([((⟨"X1".data, "tv".data, 100, "new".data, 0, none, none⟩ : Product),
                (none : Option ℝ))] : List ProdDict).getD i (emptyProduct, none)).1,
             some (calcScore defaultRankConfig
               (([((⟨"X1".data, "tv".data, 100, "new".data, 0, none, none⟩ : Product),
                 (none : Option ℝ))] : List ProdDict).getD i (emptyProduct, none)).1))) :=
  ⟨by decide,
    C10_rank_products_no_mutation defaultRankConfig
      [((⟨"X1".data, "tv".data, 100, "new".data, 0, none, none⟩ : Product), (none : Option ℝ))]
      [0] 10 (by decide)⟩

/-- Claim C1: `execute_top_seller_search` returns an error only on
invalid input (empty/whitespace query, or a region code that is not a
2-letter string), and for every valid input it returns a product list
for every marketplace-provider outcome and every contact-manager
behaviour — downstream failures never surface as an exception. -/
theorem C1_execute_error_only_on_invalid {γ : Type} (q c : PyStr)
    (fcfg : FilterConfig) (rcfg : RankConfig) (rankLimit : Nat)
    (resp : MLResponse) (oracle : Int → Except Unit γ) :
    (exceptOk (executeTopSellerSearch q c fcfg rcfg rankLimit resp oracle) = false →
      pyTrim q = [] ∨ ¬ (c.length = 2 ∧ ∀ ch ∈ c, ch.isAlpha = true))
    ∧ ((pyTrim q ≠ [] ∧ c.length = 2 ∧ (∀ ch ∈ c, ch.isAlpha = true)) →
      exceptOk (executeTopSellerSearch q c fcfg rcfg rankLimit resp oracle) = true) := by
  have hok : ∀ (hq : pyTrim q ≠ []) (hc : c.length = 2),
      exceptOk (executeTopSellerSearch q c fcfg rcfg rankLimit resp oracle) = true := by
    intro hq hc
    unfold executeTopSellerSearch
    rw [if_neg hq, if_neg (by rw [hc]; exact fun h => h rfl)]
    by_cases hp : (mlSearchStage resp).1 = []
    · rw [if_pos hp]
      rfl
    · rw [if_neg hp]
      by_cases hf : filterListings fcfg (mlSearchStage resp).1 = []
      · rw [if_pos hf]
        rfl
      · rw [if_neg hf]
        rfl
  constructor
  · intro herr
    by_contra hno
    push_neg at hno
    obtain ⟨hq, hc2, _⟩ := hno
    rw [hok hq hc2] at herr
    cases herr
  · intro hvalid
    exact hok hvalid.1 hvalid.2.1

/-- Claim C1, witness: query `"tv"`, region `"ar"`, a failing provider
and a failing contact manager still yield a successful (empty) result. -/
theorem C1_execute_error_only_on_invalid_witness :
    (pyTrim ("tv".data) ≠ [] ∧ ("ar".data).length = 2
      ∧ (∀ ch ∈ ("ar".data), ch.isAlpha = true))
    ∧ exceptOk (executeTopSellerSearch (γ := Unit) ("tv".data) ("ar".data)
        ⟨[], 0, 10000, [("new".data)]⟩ defaultRankConfig 10 MLResponse.netError
        (fun _ => Except.error ())) = true :=
  ⟨⟨by decide, by decide, by decide⟩,
    (C1_execute_error_only_on_invalid ("tv".data) ("ar".data)
      ⟨[], 0, 10000, [("new".data)]⟩ defaultRankConfig 10 MLResponse.netError
      (fun _ => Except.error ())).2 ⟨by decide, by decide, by decide⟩⟩

end SearchAgent
